import Mathlib

/-!
Shallow embedding of the Fermata taxi-backend core
(`Backend/app/services/location_service.py`, `pricing_service.py`,
`gebeta_service.py`, `routes/routes.py`) and proofs of the spec claims.

Strings are modelled as `List Char` (ASCII fragment of Python `str`),
real-number arithmetic as `ℚ`, and the persistent store / external router
as explicit response parameters (`Except Unit _` where an I/O fault is
possible).
-/

/-! ## Normalizer (`LocationService._normalize_place_name`)

Python source:
```
normalized = re.sub(r"\s+", " ", place_name.lower().strip())
normalized = re.sub(r"[^\w\s]", "", normalized)
```
`str.lower` on the ASCII fragment is `Char.toLower`; `\s` is modelled by
`Char.isWhitespace`; `\w` (ASCII fragment) by alphanumeric-or-underscore.
-/

def isSP (c : Char) : Bool := c.isWhitespace

def isWordChar (c : Char) : Bool := c.isAlphanum || c = '_'

def keepChar (c : Char) : Bool := isWordChar c || isSP c

/-- `place_name.strip()`: drop whitespace from both ends. -/
def trim (l : List Char) : List Char :=
  ((l.dropWhile isSP).reverse.dropWhile isSP).reverse

/-- First half of `re.sub(r"\s+", " ", s)`: send every whitespace char to a
plain space. -/
def mapSP (l : List Char) : List Char :=
  l.map (fun c => if isSP c then ' ' else c)

/-- Second half of `re.sub(r"\s+", " ", s)`: collapse runs of spaces. -/
def squeeze : List Char → List Char
  | a :: b :: rest =>
    if a = ' ' && b = ' ' then squeeze (b :: rest) else a :: squeeze (b :: rest)
  | l => l

/-- `re.sub(r"[^\w\s]", "", s)`: keep only word characters and whitespace. -/
def stripSpecial (l : List Char) : List Char := l.filter keepChar

/-- `LocationService._normalize_place_name`. -/
def normalize_place_name (l : List Char) : List Char :=
  stripSpecial (squeeze (mapSP (trim (l.map Char.toLower))))

/-! ## Fare calculator (`PricingService.calculate_fare`) -/

/-- Python 3 `round` (banker's rounding, exact halves go to the even
integer); `round q` in Mathlib is `⌊q + 1/2⌋`, i.e. half-up, so the exact
half case is adjusted. -/
def pyRound (q : ℚ) : ℤ :=
  if q - ⌊q⌋ = 1 / 2 then (if ⌊q⌋ % 2 = 0 then ⌊q⌋ else ⌊q⌋ + 1) else round q

/-- Numeric / flag content of the dictionary returned by
`PricingService.calculate_fare`. -/
structure FareBreakdown where
  total_fare : ℚ
  base_fare : ℚ
  distance_fare : ℚ
  time_fare : ℚ
  night_rate : Bool
  peak_hour : Bool
  long_distance_discount : Bool
  deriving Repr, DecidableEq

/-- `PricingService.calculate_fare` (constants from `PricingService.__init__`:
base 25, 12 ETB/km, 0.5 ETB/min, clamp [30, 500], night ×1.3, peak ×1.2,
long-distance ×0.9 beyond 20 km, rounded to the nearest multiple of 5). -/
def calculate_fare (distance_meters time_seconds : ℚ)
    (is_night is_peak_hour : Bool) : FareBreakdown :=
  let distance_km := distance_meters / 1000
  let time_minutes := time_seconds / 60
  let distance_fare := distance_km * 12
  let time_fare := time_minutes * (1 / 2)
  let base_calculation := 25 + distance_fare + time_fare
  let multiplier : ℚ :=
    (if is_night then (13 : ℚ) / 10 else 1) * (if is_peak_hour then (6 : ℚ) / 5 else 1)
  let base_calculation :=
    if distance_km > 20 then base_calculation * (9 / 10) else base_calculation
  let final_fare := base_calculation * multiplier
  let final_fare := max 30 final_fare
  let final_fare := min 500 final_fare
  let final_fare : ℚ := (pyRound (final_fare / 5) : ℚ) * 5
  { total_fare := final_fare
    base_fare := 25
    distance_fare := distance_fare
    time_fare := time_fare
    night_rate := is_night
    peak_hour := is_peak_hour
    long_distance_discount := distance_km > 20 }

/-! ## Approximate matcher (`difflib.get_close_matches`, as called with
`n=1` and no junk; the `autojunk` heuristic only applies to a second
sequence of length ≥ 200 and is not modelled). -/

/-- Length of the common run of `a` and `b` ending at positions `(i, j)`,
truncated at the window lower bounds `alo`, `blo` — the value difflib keeps
in `j2len` inside `SequenceMatcher.find_longest_match`. -/
def runLen (a b : List Char) (alo blo : ℕ) : ℕ → ℕ → ℕ
  | 0, j =>
    if 0 < alo ∨ j < blo then 0
    else if a[0]?.isSome ∧ a[0]? = b[j]? then 1 else 0
  | i + 1, j =>
    if i + 1 < alo ∨ j < blo then 0
    else if a[i+1]?.isSome ∧ a[i+1]? = b[j]? then
      (if j = 0 then 1 else runLen a b alo blo i (j - 1) + 1)
    else 0

/-- `SequenceMatcher.find_longest_match` on the window
`a[alo:ahi] × b[blo:bhi]` (no junk, so the junk-extension loops are
no-ops): scan `i` then `j` ascending, keep the first strictly larger run. -/
def find_longest_match (a b : List Char) (alo ahi blo bhi : ℕ) : ℕ × ℕ × ℕ :=
  (List.range ahi).foldl
    (fun best i =>
      if i < alo then best
      else
        (List.range bhi).foldl
          (fun best j =>
            if j < blo then best
            else
              let k := runLen a b alo blo i j
              if k > best.2.2 then (i + 1 - k, j + 1 - k, k) else best)
          best)
    (alo, blo, 0)

/-- Total size of the matching blocks of
`SequenceMatcher.get_matching_blocks` (the only part of the block list that
`ratio` uses).  The recursion of `get_matching_blocks` strictly shrinks the
window, so fuel `(ahi - alo) + (bhi - blo) + 1` never runs out. -/
def matchesTotalAux (a b : List Char) : ℕ → ℕ → ℕ → ℕ → ℕ → ℕ
  | 0, _, _, _, _ => 0
  | fuel + 1, alo, ahi, blo, bhi =>
    let r := find_longest_match a b alo ahi blo bhi
    if r.2.2 = 0 then 0
    else
      matchesTotalAux a b fuel alo r.1 blo r.2.1 + r.2.2 +
        matchesTotalAux a b fuel (r.1 + r.2.2) ahi (r.2.1 + r.2.2) bhi

def matchesTotal (a b : List Char) : ℕ :=
  matchesTotalAux a b (a.length + b.length + 1) 0 a.length 0 b.length

/-- `SequenceMatcher(None, x, word).ratio()` = `2·M / (len(x)+len(word))`
(`_calculate_ratio`; `1.0` when both are empty). -/
def sequenceRatio (x word : List Char) : ℚ :=
  if x.length + word.length = 0 then 1
  else mkRat (2 * (matchesTotal x word : ℤ)) (x.length + word.length)

/-- Python string `<` on the ASCII fragment: lexicographic by code point. -/
def strLtB : List Char → List Char → Bool
  | _, [] => false
  | [], _ :: _ => true
  | a :: as, b :: bs => if a < b then true else if a = b then strLtB as bs else false

/-- Python tuple comparison `(score, string) > (score, string)` as used by
`heapq.nlargest` on difflib's scored candidates. -/
def pairGtB (p q : ℚ × List Char) : Bool :=
  if q.1 < p.1 then true else if q.1 = p.1 then strLtB q.2 p.2 else false

/-- `heapq.nlargest(1, result)` followed by taking the head:
the maximum under tuple comparison, first occurrence winning exact ties
(`nlargest` is equivalent to a stable descending sort). -/
def nlargest1 (l : List (ℚ × List Char)) : Option (ℚ × List Char) :=
  l.foldl
    (fun acc p =>
      match acc with
      | none => some p
      | some q => if pairGtB p q then some p else some q)
    none

/-- `difflib.get_close_matches(word, possibilities, n=1, cutoff)` — the
filter keeps a candidate iff its ratio is ≥ cutoff (the `real_quick_ratio`
and `quick_ratio` pre-checks are upper bounds of `ratio`, so they never
reject a candidate that `ratio` accepts). -/
def get_close_matches1 (word : List Char) (possibilities : List (List Char))
    (cutoff : ℚ) : Option (List Char) :=
  (nlargest1 (possibilities.filterMap fun x =>
      let r := sequenceRatio x word
      if cutoff ≤ r then some (r, x) else none)).map Prod.snd

/-! ## Gazetteer and location resolver (`LocationService`) -/

structure LocationResponse where
  name : List Char
  lat : ℚ
  lng : ℚ
  deriving DecidableEq, Repr

/-- `LocationService.common_locations`, in source (= dict insertion) order.
The dict values `{lat, lng, name}` are exactly the fields of the
`LocationResponse` the resolver builds from them. -/
def common_locations : List (List Char × LocationResponse) :=
  [ ("mexico".data, ⟨"Mexico".data, 8.989022, 38.79036⟩)
  , ("ayertena".data, ⟨"Ayertena".data, 9.03045, 38.76530⟩)
  , ("bole".data, ⟨"Bole".data, 8.9806, 38.7578⟩)
  , ("bole airport".data, ⟨"Bole Airport".data, 8.9806, 38.7578⟩)
  , ("kazanchis".data, ⟨"Kazanchis".data, 9.0123, 38.7567⟩)
  , ("megenagna".data, ⟨"Megenagna".data, 9.0123, 38.7567⟩)
  , ("torhailoch".data, ⟨"Torhailoch".data, 9.0456, 38.7890⟩)
  , ("merkato".data, ⟨"Merkato".data, 9.0123, 38.7567⟩)
  , ("addis ababa university".data, ⟨"Addis Ababa University".data, 9.0456, 38.7890⟩)
  , ("aau".data, ⟨"Addis Ababa University".data, 9.0456, 38.7890⟩)
  , ("kirkos".data, ⟨"Kirkos".data, 9.03045, 38.76530⟩)
  , ("arada".data, ⟨"Arada".data, 9.0123, 38.7567⟩)
  , ("piazza".data, ⟨"Piazza".data, 9.0123, 38.7567⟩)
  , ("entoto".data, ⟨"Entoto".data, 9.0123, 38.7567⟩)
  , ("saris".data, ⟨"Saris".data, 9.0123, 38.7567⟩)
  , ("summit".data, ⟨"Summit".data, 9.0123, 38.7567⟩)
  , ("kolfe".data, ⟨"Kolfe".data, 9.0123, 38.7567⟩)
  , ("gerji".data, ⟨"Gerji".data, 9.0123, 38.7567⟩)
  , ("cmes".data, ⟨"CMES".data, 9.0123, 38.7567⟩)
  , ("edna mall".data, ⟨"Edna Mall".data, 8.9806, 38.7578⟩)
  , ("unity university".data, ⟨"Unity University".data, 9.0123, 38.7567⟩)
  , ("ethiopian airlines".data, ⟨"Ethiopian Airlines".data, 8.9806, 38.7578⟩)
  , ("addis ababa".data, ⟨"Addis Ababa".data, 9.0123, 38.7567⟩)
  , ("addis".data, ⟨"Addis Ababa".data, 9.0123, 38.7567⟩) ]

/-- A row of the `locations` table (the columns the resolver reads). -/
structure DbLocation where
  name : List Char
  lat : ℚ
  lng : ℚ
  is_active : Bool
  deriving DecidableEq, Repr

/-- `needle` occurs as a contiguous substring of `hay` (SQL
`hay LIKE '%needle%'`). -/
def containsSub (hay needle : List Char) : Bool :=
  match hay with
  | [] => needle.isEmpty
  | _ :: rest => needle.isPrefixOf hay || containsSub rest needle

/-- Drop everything up to and including the first occurrence of `needle`
in `hay`; `none` when `needle` does not occur. -/
def dropAfterFirst (hay needle : List Char) : Option (List Char) :=
  match hay with
  | [] => if needle = [] then some [] else none
  | c :: rest =>
    if needle.isPrefixOf (c :: rest) then some ((c :: rest).drop needle.length)
    else dropAfterFirst rest needle

/-- SQL `LIKE '%p₁%p₂%…%'`: the parts occur in order (greedy leftmost
matching, which is complete for patterns of this shape). -/
def like_parts (hay : List Char) : List (List Char) → Bool
  | [] => true
  | p :: ps =>
    match dropAfterFirst hay p with
    | none => false
    | some rest => like_parts rest ps

/-- Split on the space character (`normalized.replace(" ", "%")` turns the
normalized text into a `LIKE` pattern whose parts are these). -/
def splitOnSpace : List Char → List (List Char)
  | [] => [[]]
  | c :: rest =>
    let r := splitOnSpace rest
    if c = ' ' then [] :: r
    else
      match r with
      | [] => [[c]]
      | h :: t => (c :: h) :: t

/-- The `WHERE` clause of `LocationService._find_in_database`:
`name ILIKE '%normalized%' OR name ILIKE '%normalized-with-spaces-as-%%'`,
and `is_active` (ILIKE compares case-insensitively). -/
def matching_rows (rows : List DbLocation) (normalized : List Char) : List DbLocation :=
  rows.filter fun r =>
    (containsSub (r.name.map Char.toLower) (normalized.map Char.toLower) ||
      like_parts (r.name.map Char.toLower)
        (splitOnSpace (normalized.map Char.toLower))) &&
    r.is_active

/-- SQLAlchemy `Result.scalar_one_or_none`: zero rows → `None`, one row →
that row, two or more rows → raises `MultipleResultsFound`. -/
def scalar_one_or_none (l : List DbLocation) : Except Unit (Option DbLocation) :=
  match l with
  | [] => .ok none
  | [x] => .ok (some x)
  | _ => .error ()

/-- The store's answer to the tier-2 query, when the I/O itself succeeds. -/
def db_find_response (rows : List DbLocation) (normalized : List Char) :
    Except Unit (Option DbLocation) :=
  scalar_one_or_none (matching_rows rows normalized)

/-- `LocationService._find_in_database`: the `try/except` turns any store
error into `None`. -/
def find_in_database (findResp : Except Unit (Option DbLocation)) : Option DbLocation :=
  match findResp with
  | .ok o => o
  | .error _ => none

/-- `LocationService._fuzzy_match_location`: fuzzy match over the gazetteer
keys, `n=1`, `cutoff=0.6`. -/
def fuzzy_match_location (normalized : List Char) : Option (List Char) :=
  get_close_matches1 normalized (common_locations.map Prod.fst) (mkRat 3 5)

/-- `LocationService._fuzzy_match_database`: list all active locations
(`listResp`; an I/O error is caught and yields `None`), fuzzy-match over
their lower-cased names, then return the first location whose lower-cased
name equals the match. -/
def fuzzy_match_database (listResp : Except Unit (List DbLocation))
    (normalized : List Char) : Option DbLocation :=
  match listResp with
  | .error _ => none
  | .ok locations =>
    match get_close_matches1 normalized
        (locations.map fun l => l.name.map Char.toLower) (mkRat 3 5) with
    | none => none
    | some m => locations.find? fun l => l.name.map Char.toLower = m

/-- `LocationService.resolve_place_name`.  The two store interactions are
passed in as explicit responses: `findResp` is the store's answer to the
tier-2 substring query for the normalized input, `listResp` the answer to
the tier-4 list-active query; `Except.error` models an I/O fault. -/
def resolve_place_name (place_name : List Char)
    (findResp : Except Unit (Option DbLocation))
    (listResp : Except Unit (List DbLocation)) : Option LocationResponse :=
  let normalized := normalize_place_name place_name
  match common_locations.lookup normalized with
  | some loc => some loc
  | none =>
    match find_in_database findResp with
    | some dbl => some ⟨dbl.name, dbl.lat, dbl.lng⟩
    | none =>
      match fuzzy_match_location normalized with
      | some key =>
        match common_locations.lookup key with
        | some loc => some loc
        | none => none
      | none =>
        match fuzzy_match_database listResp normalized with
        | some dbl => some ⟨dbl.name, dbl.lat, dbl.lng⟩
        | none => none

/-! ## External routing client (`GebetaService`) -/

/-- The JSON body of a 200 response, with the optional fields
`_parse_success_response` reads via `dict.get`. -/
structure GebetaData where
  totalDistance : Option ℚ
  timetaken : Option ℚ
  direction : Option (List (List ℚ))
  msg : Option (List Char)
  instructions : Option (List (List Char))
  deriving DecidableEq, Repr

/-- The fields of the pydantic `RouteResponse` the claims touch. -/
structure RouteResponse where
  success : Bool
  distance : ℚ
  time : ℚ
  coordinates : List (List ℚ)
  message : List Char
  instructions : Option (List (List Char))
  deriving DecidableEq, Repr

/-- What `client.get` inside `GebetaService.get_route` can come back with:
an HTTP response, an `httpx.TimeoutException`, an `httpx.RequestError`, or
any other exception (with its rendered text). -/
inductive HttpAttempt where
  | response (status_code : ℕ) (data : GebetaData)
  | timeoutExc
  | requestError (errText : List Char)
  | otherExc (errText : List Char)
  deriving DecidableEq, Repr

/-- `GebetaService._parse_success_response` (the `dict.get` defaults). -/
def parse_success_response (data : GebetaData) : RouteResponse :=
  { success := true
    distance := data.totalDistance.getD 0
    time := data.timetaken.getD 0
    coordinates := data.direction.getD []
    message := data.msg.getD "OK".data
    instructions := data.instructions }

/-- The `error_messages` table of `GebetaService._parse_error_response`. -/
def error_messages : List (ℕ × List Char) :=
  [ (401, "Authentication failed - check API key".data)
  , (404, "No route found between specified locations".data)
  , (422, "Invalid input parameters".data)
  , (429, "Rate limit exceeded".data)
  , (500, "Gebeta API server error".data) ]

/-- `GebetaService._parse_error_response`. -/
def parse_error_response (status_code : ℕ) : RouteResponse :=
  { success := false
    distance := 0
    time := 0
    coordinates := []
    message := (error_messages.lookup status_code).getD
      ("API error (status ".data ++ (toString status_code).data ++ ")".data)
    instructions := none }

/-- `GebetaService.get_route`, as a function of what the HTTP attempt
produced (request assembly has no failure mode of its own). -/
def get_route (attempt : HttpAttempt) : RouteResponse :=
  match attempt with
  | .response 200 data => parse_success_response data
  | .response s _ => parse_error_response s
  | .timeoutExc =>
    ⟨false, 0, 0, [], "Request timed out".data, none⟩
  | .requestError e =>
    ⟨false, 0, 0, [], "Network error: ".data ++ e, none⟩
  | .otherExc e =>
    ⟨false, 0, 0, [], "Unexpected error: ".data ++ e, none⟩

/-! ## Taxi endpoints (`routes.py`) -/

inductive TaxiStatus where
  | available
  | busy
  | offline
  | maintenance
  deriving DecidableEq, Repr

/-- The columns of the `taxis` table that the nearby-taxi queries read. -/
structure Taxi where
  current_lat : ℚ
  current_lng : ℚ
  status : TaxiStatus
  deriving DecidableEq, Repr

/-- The `WHERE` clause shared by `get_nearby_taxis` and step 3 of
`plan_route_with_taxis`: both coordinates `BETWEEN` center ± delta
(inclusive) and status `AVAILABLE`. -/
def nearby_filter (lat lng lat_delta lng_delta : ℚ) (t : Taxi) : Bool :=
  (lat - lat_delta ≤ t.current_lat && t.current_lat ≤ lat + lat_delta) &&
  (lng - lng_delta ≤ t.current_lng && t.current_lng ≤ lng + lng_delta) &&
  t.status = TaxiStatus.available

/-- `get_nearby_taxis` (`GET /taxis/nearby`), as a filter over the vehicle
snapshot the query runs against.  `lat ≠ 0` is assumed wherever this is
used: at `lat = 0` the Python divides by zero and the endpoint 500s. -/
def get_nearby_taxis (lat lng radius_km : ℚ) (snapshot : List Taxi) : List Taxi :=
  let lat_delta := radius_km / 111
  let lng_delta := radius_km / (111 * |lat|)
  snapshot.filter (nearby_filter lat lng lat_delta lng_delta)

/-! ## Trip-planning endpoint (`plan_route_with_taxis`) -/

inductive Side where
  | origin
  | destination
  deriving DecidableEq, Repr

/-- The combined payload `plan_route_with_taxis` returns on success. -/
structure PlanData where
  route_distance : ℚ
  route_time : ℚ
  route_coordinates : List (List ℚ)
  route_message : List Char
  fare : FareBreakdown
  nearby_taxis : List Taxi
  origin : ℚ × ℚ
  destination : ℚ × ℚ
  deriving DecidableEq, Repr

/-- Possible outcomes of the planning endpoint.  `locationNotFound` is the
outcome §4.7 of the spec prescribes for an unresolvable endpoint; it is
part of the type so that theorems can state whether the code ever
produces it. -/
inductive PlanOutcome where
  | ok (d : PlanData)
  | httpError (status_code : ℕ) (detail : List Char)
  | locationNotFound (side : Side)
  deriving DecidableEq, Repr

/-- `plan_route_with_taxis` (`GET /route/plan`).  Inputs are the four
coordinate query parameters; `route_result` is what
`gebeta_service.get_route` returned; `snapshot` is the taxi snapshot the
step-3 query runs against, `Except.error` modelling a store I/O failure
(the outer `except Exception` of the endpoint turns it into an
HTTP 500 with detail "Error planning route: …"). -/
def plan_route_with_taxis (origin_lat origin_lng dest_lat dest_lng : ℚ)
    (route_result : RouteResponse)
    (snapshot : Except Unit (List Taxi)) : PlanOutcome :=
  if route_result.success = false then
    .httpError 400 route_result.message
  else
    let fare_result := calculate_fare route_result.distance route_result.time false false
    match snapshot with
    | .error _ => .httpError 500 "Error planning route: ".data
    | .ok taxis =>
      let lat_delta : ℚ := 2 / 111
      let lng_delta : ℚ := 2 / (111 * |origin_lat|)
      let nearby := taxis.filter (nearby_filter origin_lat origin_lng lat_delta lng_delta)
      .ok
        { route_distance := route_result.distance
          route_time := route_result.time
          route_coordinates := route_result.coordinates
          route_message := route_result.message
          fare := fare_result
          nearby_taxis := nearby
          origin := (origin_lat, origin_lng)
          destination := (dest_lat, dest_lng) }

/-! ## Arithmetic facts about `pyRound` -/

theorem pyRound_le_add_half (q : ℚ) : (pyRound q : ℚ) ≤ q + 1 / 2 := by
  unfold pyRound
  split
  · rename_i h
    have hfl := Int.floor_le q
    split <;> push_cast <;> linarith
  · rw [round_eq]
    have := Int.floor_le (q + 1 / 2)
    linarith

theorem sub_half_le_pyRound (q : ℚ) : q - 1 / 2 ≤ (pyRound q : ℚ) := by
  unfold pyRound
  split
  · rename_i h
    split <;> push_cast <;> linarith
  · rw [round_eq]
    have := Int.sub_one_lt_floor (q + 1 / 2)
    linarith

theorem pyRound_mono {q r : ℚ} (h : q ≤ r) : pyRound q ≤ pyRound r := by
  by_contra hc
  push_neg at hc
  have h1 : (pyRound r : ℚ) + 1 ≤ (pyRound q : ℚ) := by
    exact_mod_cast Int.add_one_le_iff.mpr hc
  have h2 := pyRound_le_add_half q
  have h3 := sub_half_le_pyRound r
  have hrq : r ≤ q := by linarith
  have : q = r := le_antisymm h hrq
  subst this
  exact absurd hc (lt_irrefl _)

theorem pyRound_intCast (n : ℤ) : pyRound (n : ℚ) = n := by
  unfold pyRound
  rw [Int.floor_intCast, round_intCast]
  split
  · rename_i h
    simp at h
  · rfl

theorem fare_pipeline_mono {a b m : ℚ} (hm : 0 ≤ m) (hab : a ≤ b) :
    (pyRound (min 500 (max 30 (a * m)) / 5) : ℚ) * 5 ≤
    (pyRound (min 500 (max 30 (b * m)) / 5) : ℚ) * 5 := by
  have h1 : a * m ≤ b * m := mul_le_mul_of_nonneg_right hab hm
  have h2 : min 500 (max 30 (a * m)) ≤ min 500 (max 30 (b * m)) :=
    min_le_min le_rfl (max_le_max le_rfl h1)
  have h3 : min 500 (max 30 (a * m)) / 5 ≤ min 500 (max 30 (b * m)) / 5 := by linarith
  have h5 : (pyRound (min 500 (max 30 (a * m)) / 5) : ℚ) ≤
      (pyRound (min 500 (max 30 (b * m)) / 5) : ℚ) := by exact_mod_cast pyRound_mono h3
  linarith

theorem fare_pipeline_bounds (e : ℚ) :
    30 ≤ (pyRound (min 500 (max 30 e) / 5) : ℚ) * 5 ∧
    (pyRound (min 500 (max 30 e) / 5) : ℚ) * 5 ≤ 500 ∧
    ∃ k : ℤ, (pyRound (min 500 (max 30 e) / 5) : ℚ) * 5 = 5 * k := by
  have hx1 : 30 ≤ min 500 (max 30 e) := le_min (by norm_num) (le_max_left _ _)
  have hx2 : min 500 (max 30 e) ≤ 500 := min_le_left _ _
  have hlo : ((6 : ℤ) : ℚ) ≤ min 500 (max 30 e) / 5 := by push_cast; linarith
  have hhi : min 500 (max 30 e) / 5 ≤ ((100 : ℤ) : ℚ) := by push_cast; linarith
  have h6 : (6 : ℤ) ≤ pyRound (min 500 (max 30 e) / 5) := by
    have := pyRound_mono hlo
    rwa [pyRound_intCast] at this
  have h100 : pyRound (min 500 (max 30 e) / 5) ≤ (100 : ℤ) := by
    have := pyRound_mono hhi
    rwa [pyRound_intCast] at this
  refine ⟨?_, ?_, ⟨pyRound (min 500 (max 30 e) / 5), by ring⟩⟩
  · have : ((6 : ℤ) : ℚ) ≤ (pyRound (min 500 (max 30 e) / 5) : ℚ) := by exact_mod_cast h6
    push_cast at this
    linarith
  · have : ((pyRound (min 500 (max 30 e) / 5) : ℤ) : ℚ) ≤ ((100 : ℤ) : ℚ) := by
      exact_mod_cast h100
    push_cast at this
    linarith

/-- Claim C4 (counterexample): at fixed time 0 and both flags off, raising
the distance from 20000 m to 21000 m drops the total fare from 265 to 250
(the 10% long-distance discount kicks in past 20 km), although both fares
lie strictly between the clamps 30 and 500 — so `calculate_fare` is not
non-decreasing in distance on the clamp-free range. -/
theorem calculate_fare_monotonicity_counterexample :
    (20000 : ℚ) < 21000 ∧
    (calculate_fare 20000 0 false false).total_fare = 265 ∧
    (calculate_fare 21000 0 false false).total_fare = 250 ∧
    ¬ (calculate_fare 20000 0 false false).total_fare ≤
        (calculate_fare 21000 0 false false).total_fare ∧
    (30 : ℚ) < 250 ∧ (265 : ℚ) < 500 := by
  refine ⟨by norm_num, ?_, ?_, ?_, by norm_num, by norm_num⟩ <;>
    norm_num [calculate_fare, pyRound, round_eq, min_def, max_def]

/-- Claim C4 (amended): for fixed time and fixed night/peak flags, the
total fare of `calculate_fare` is non-decreasing in distance on each side
of the 20 km long-distance-discount threshold (both distances ≤ 20000 m,
or both > 20000 m); across that threshold the fare can drop. -/
theorem calculate_fare_monotone_within_regime :
    ∀ (t : ℚ) (night peak : Bool) (d1 d2 : ℚ),
      d1 ≤ d2 → (d2 ≤ 20000 ∨ 20000 < d1) →
      (calculate_fare d1 t night peak).total_fare ≤
        (calculate_fare d2 t night peak).total_fare := by
  intro t night peak d1 d2 hle hreg
  have hm : 0 ≤ (if night then (13 : ℚ) / 10 else 1) * (if peak then (6 : ℚ) / 5 else 1) := by
    rcases night <;> rcases peak <;> norm_num
  simp only [calculate_fare]
  rcases hreg with hreg | hreg
  · have hn1 : ¬ (d1 / 1000 > 20) := by push_neg; linarith
    have hn2 : ¬ (d2 / 1000 > 20) := by push_neg; linarith
    rw [if_neg hn1, if_neg hn2]
    exact fare_pipeline_mono hm (by linarith)
  · have hp1 : d1 / 1000 > 20 := by linarith
    have hp2 : d2 / 1000 > 20 := by linarith
    rw [if_pos hp1, if_pos hp2]
    exact fare_pipeline_mono hm (by nlinarith)

theorem calculate_fare_monotone_within_regime_witness :
    (1000 : ℚ) ≤ 2000 ∧ ((2000 : ℚ) ≤ 20000 ∨ (20000 : ℚ) < 1000) ∧
    (calculate_fare 1000 0 false false).total_fare ≤
      (calculate_fare 2000 0 false false).total_fare :=
  ⟨by norm_num, Or.inl (by norm_num),
    calculate_fare_monotone_within_regime 0 false false 1000 2000 (by norm_num)
      (Or.inl (by norm_num))⟩

/-- Claim C5: for all non-negative distance and time and all flag
combinations the total fare lies in [30, 500] and is a multiple of 5;
`calculate_fare 0 0 false false` returns exactly the minimum 30, and any
distance ≥ 45000 m yields exactly the maximum 500. -/
theorem calculate_fare_clamp_and_multiple_of_five :
    (∀ (d t : ℚ), 0 ≤ d → 0 ≤ t → ∀ (night peak : Bool),
      30 ≤ (calculate_fare d t night peak).total_fare ∧
      (calculate_fare d t night peak).total_fare ≤ 500 ∧
      ∃ k : ℤ, (calculate_fare d t night peak).total_fare = 5 * k) ∧
    (calculate_fare 0 0 false false).total_fare = 30 ∧
    ∀ (d t : ℚ), 45000 ≤ d → 0 ≤ t → ∀ (night peak : Bool),
      (calculate_fare d t night peak).total_fare = 500 := by
  refine ⟨?_, ?_, ?_⟩
  · intro d t _ _ night peak
    simp only [calculate_fare]
    exact fare_pipeline_bounds _
  · norm_num [calculate_fare, pyRound, round_eq, min_def, max_def]
  · intro d t hd ht night peak
    simp only [calculate_fare]
    have hgt : d / 1000 > 20 := by linarith
    rw [if_pos hgt]
    have htf : 0 ≤ t / 60 * (1 / 2) := by positivity
    have hbase : 565 ≤ 25 + d / 1000 * 12 + t / 60 * (1 / 2) := by
      have : (45 : ℚ) ≤ d / 1000 := by linarith
      nlinarith
    have hmult : 1 ≤ (if night then (13 : ℚ) / 10 else 1) *
        (if peak then (6 : ℚ) / 5 else 1) := by
      rcases night <;> rcases peak <;> norm_num
    have hff : (500 : ℚ) ≤ (25 + d / 1000 * 12 + t / 60 * (1 / 2)) * (9 / 10) *
        ((if night then (13 : ℚ) / 10 else 1) * (if peak then (6 : ℚ) / 5 else 1)) := by
      nlinarith
    rw [max_eq_right (by linarith), min_eq_left hff]
    rw [show (500 : ℚ) / 5 = ((100 : ℤ) : ℚ) by norm_num, pyRound_intCast]
    norm_num

theorem calculate_fare_clamp_witness :
    (30 ≤ (calculate_fare 1000 60 true false).total_fare ∧
     (calculate_fare 1000 60 true false).total_fare ≤ 500 ∧
     ∃ k : ℤ, (calculate_fare 1000 60 true false).total_fare = 5 * k) ∧
    (calculate_fare 50000 300 true true).total_fare = 500 :=
  ⟨calculate_fare_clamp_and_multiple_of_five.1 1000 60 (by norm_num) (by norm_num) true false,
   calculate_fare_clamp_and_multiple_of_five.2.2 50000 300 (by norm_num) (by norm_num) true true⟩

/-- Claim C9: every taxi returned by the nearby search has status
AVAILABLE, latitude within `radius/111` degrees of the center latitude and
longitude within `radius/(111·|center latitude|)` degrees of the center
longitude (center latitude non-zero: at zero the endpoint divides by zero
and 500s instead). -/
theorem get_nearby_taxis_containment :
    ∀ (lat lng radius_km : ℚ), lat ≠ 0 → ∀ (snapshot : List Taxi) (t : Taxi),
      t ∈ get_nearby_taxis lat lng radius_km snapshot →
      t.status = TaxiStatus.available ∧
      |t.current_lat - lat| ≤ radius_km / 111 ∧
      |t.current_lng - lng| ≤ radius_km / (111 * |lat|) := by
  intro lat lng r _ snapshot t ht
  simp only [get_nearby_taxis] at ht
  rw [List.mem_filter] at ht
  obtain ⟨-, hcond⟩ := ht
  simp only [nearby_filter, Bool.and_eq_true, decide_eq_true_eq] at hcond
  obtain ⟨⟨⟨h1, h2⟩, h3, h4⟩, h5⟩ := hcond
  exact ⟨h5, abs_le.mpr ⟨by linarith, by linarith⟩, abs_le.mpr ⟨by linarith, by linarith⟩⟩

theorem get_nearby_taxis_containment_witness :
    (9 : ℚ) ≠ 0 ∧
    ((⟨9, 38, TaxiStatus.available⟩ : Taxi).status = TaxiStatus.available ∧
     |(⟨9, 38, TaxiStatus.available⟩ : Taxi).current_lat - 9| ≤ (2 : ℚ) / 111 ∧
     |(⟨9, 38, TaxiStatus.available⟩ : Taxi).current_lng - 38| ≤ (2 : ℚ) / (111 * |(9 : ℚ)|)) :=
  ⟨by norm_num,
   get_nearby_taxis_containment 9 38 2 (by norm_num) [⟨9, 38, TaxiStatus.available⟩]
     ⟨9, 38, TaxiStatus.available⟩
     (by simp [get_nearby_taxis, nearby_filter, List.mem_filter]; norm_num)⟩

/-- Claim C2: the planning endpoint in the code takes four raw coordinates,
never consults the location resolver, and can never produce the
`LOCATION_NOT_FOUND` outcome that the spec (and the repo's own
`main.py` API description, which advertises place-name planning)
prescribe — whatever the router answers and whatever the store does. -/
theorem plan_route_never_location_not_found :
    ∀ (origin_lat origin_lng dest_lat dest_lng : ℚ) (route_result : RouteResponse)
      (snapshot : Except Unit (List Taxi)) (s : Side),
      plan_route_with_taxis origin_lat origin_lng dest_lat dest_lng route_result snapshot ≠
        PlanOutcome.locationNotFound s := by
  intro olat olng dlat dlng rr snap s
  rcases snap with e | taxis <;> simp only [plan_route_with_taxis] <;> split <;> simp

/-- Claim C3 (counterexample): with a successful route response, a store
I/O failure in the nearby-taxi step makes the whole plan fail with
HTTP 500 — it does not return a successful plan with an empty vehicle
list. -/
theorem plan_vehicle_failure_counterexample :
    plan_route_with_taxis 9 38 9.03 38.76 ⟨true, 8500, 900, [], "OK".data, none⟩
        (Except.error ()) =
      PlanOutcome.httpError 500 "Error planning route: ".data ∧
    plan_route_with_taxis 9 38 9.03 38.76 ⟨true, 8500, 900, [], "OK".data, none⟩
        (Except.error ()) ≠
      PlanOutcome.ok ⟨8500, 900, [], "OK".data, calculate_fare 8500 900 false false, [],
        (9, 38), (9.03, 38.76)⟩ := by
  have h1 : plan_route_with_taxis 9 38 9.03 38.76 ⟨true, 8500, 900, [], "OK".data, none⟩
      (Except.error ()) = PlanOutcome.httpError 500 "Error planning route: ".data := rfl
  refine ⟨h1, ?_⟩
  rw [h1]
  simp

/-- Claim C3 (amended): when routing succeeded, a failure of the
nearby-vehicle store query turns the whole plan into an HTTP 500 failure
(the endpoint's single `try/except` covers it); it does not degrade to a
successful plan with an empty vehicle list. -/
theorem plan_vehicle_failure_fails_plan :
    ∀ (origin_lat origin_lng dest_lat dest_lng : ℚ) (route_result : RouteResponse),
      route_result.success = true →
      plan_route_with_taxis origin_lat origin_lng dest_lat dest_lng route_result
          (Except.error ()) =
        PlanOutcome.httpError 500 "Error planning route: ".data := by
  intro olat olng dlat dlng rr h
  simp only [plan_route_with_taxis, h]
  norm_num

theorem plan_vehicle_failure_fails_plan_witness :
    (⟨true, 8500, 900, [], "OK".data, none⟩ : RouteResponse).success = true ∧
    plan_route_with_taxis 8.99 38.79 9.03 38.76 ⟨true, 8500, 900, [], "OK".data, none⟩
        (Except.error ()) =
      PlanOutcome.httpError 500 "Error planning route: ".data :=
  ⟨rfl, plan_vehicle_failure_fails_plan 8.99 38.79 9.03 38.76 _ rfl⟩

theorem network_error_message_ne_timeout (e : List Char) :
    "Network error: ".data ++ e ≠ "Request timed out".data := by
  intro h
  have h1 : ("Network error: ".data ++ e).head? = some 'N' := rfl
  rw [h] at h1
  exact absurd h1 (by decide)

theorem get_route_nonsuccess (s : ℕ) (hs : s ≠ 200) (d : GebetaData) :
    (get_route (.response s d)).success = false := by
  unfold get_route
  split
  · rename_i heq
    injection heq with h1 h2
    exact absurd h1 hs
  · rfl
  all_goals rename_i heq; exact absurd heq (by intro hh; cases hh)

/-- Claim C8: `get_route` is a total function of the HTTP attempt — the
five known status codes map to their fixed messages, a timeout and a
network error map to two distinct messages, any other exception becomes a
failure result, and the only successful outcomes come from a 200
response. -/
theorem get_route_error_taxonomy :
    (∀ d : GebetaData,
      (get_route (.response 401 d)).message = "Authentication failed - check API key".data ∧
      (get_route (.response 404 d)).message = "No route found between specified locations".data ∧
      (get_route (.response 422 d)).message = "Invalid input parameters".data ∧
      (get_route (.response 429 d)).message = "Rate limit exceeded".data ∧
      (get_route (.response 500 d)).message = "Gebeta API server error".data) ∧
    (∀ (s : ℕ) (d : GebetaData), s ≠ 200 → (get_route (.response s d)).success = false) ∧
    (get_route .timeoutExc).message = "Request timed out".data ∧
    (∀ e : List Char,
      (get_route (.requestError e)).message = "Network error: ".data ++ e ∧
      (get_route (.requestError e)).message ≠ (get_route .timeoutExc).message) ∧
    (∀ e : List Char, (get_route (.otherExc e)).success = false) ∧
    (∀ a : HttpAttempt, (get_route a).success = true →
      ∃ d, a = HttpAttempt.response 200 d) := by
  refine ⟨fun d => ⟨rfl, rfl, rfl, rfl, rfl⟩, fun s d hs => get_route_nonsuccess s hs d, rfl,
    fun e => ⟨rfl, network_error_message_ne_timeout e⟩, fun e => rfl, ?_⟩
  intro a h
  match a with
  | .response s d =>
    by_cases hs : s = 200
    · subst hs; exact ⟨d, rfl⟩
    · rw [get_route_nonsuccess s hs d] at h
      cases h
  | .timeoutExc => simp [get_route] at h
  | .requestError e => simp [get_route] at h
  | .otherExc e => simp [get_route] at h

theorem get_route_error_taxonomy_witness :
    (403 : ℕ) ≠ 200 ∧
    (get_route (.response 403 ⟨none, none, none, none, none⟩)).success = false ∧
    (get_route (.response 200 ⟨none, none, none, none, none⟩)).success = true ∧
    ∃ d, HttpAttempt.response 200 ⟨none, none, none, none, none⟩ =
      HttpAttempt.response 200 d :=
  ⟨by norm_num,
   get_route_error_taxonomy.2.1 403 ⟨none, none, none, none, none⟩ (by norm_num),
   rfl,
   get_route_error_taxonomy.2.2.2.2.2 (.response 200 ⟨none, none, none, none, none⟩) rfl⟩

/-- Claim C10: when two or more active store rows match the substring
pattern of the normalized input, `scalar_one_or_none` raises, the tier-2
handler swallows the exception, and resolution behaves exactly as if the
store had reported no match — it falls through to the fuzzy tiers rather
than returning any of the matching rows. -/
theorem store_multi_match_falls_through :
    ∀ (input : List Char) (rows : List DbLocation)
      (listResp : Except Unit (List DbLocation)),
      2 ≤ (matching_rows rows (normalize_place_name input)).length →
      find_in_database (db_find_response rows (normalize_place_name input)) = none ∧
      resolve_place_name input (db_find_response rows (normalize_place_name input)) listResp =
        resolve_place_name input (Except.ok none) listResp := by
  intro input rows listResp h2
  have herr : db_find_response rows (normalize_place_name input) = Except.error () := by
    unfold db_find_response
    rcases hl : matching_rows rows (normalize_place_name input) with - | ⟨x, - | ⟨y, rest⟩⟩
    · rw [hl] at h2; simp at h2
    · rw [hl] at h2; simp at h2
    · rfl
  rw [herr]
  exact ⟨rfl, rfl⟩

theorem store_multi_match_falls_through_witness :
    2 ≤ (matching_rows
          [⟨"Boleh Plaza".data, 9, 38, true⟩, ⟨"Boleh Cafe".data, 9, 38, true⟩]
          (normalize_place_name "Boleh!".data)).length ∧
    find_in_database (db_find_response
        [⟨"Boleh Plaza".data, 9, 38, true⟩, ⟨"Boleh Cafe".data, 9, 38, true⟩]
        (normalize_place_name "Boleh!".data)) = none ∧
    resolve_place_name "Boleh!".data
        (db_find_response
          [⟨"Boleh Plaza".data, 9, 38, true⟩, ⟨"Boleh Cafe".data, 9, 38, true⟩]
          (normalize_place_name "Boleh!".data))
        (Except.ok []) =
      resolve_place_name "Boleh!".data (Except.ok none) (Except.ok []) :=
  ⟨by decide,
   store_multi_match_falls_through "Boleh!".data
     [⟨"Boleh Plaza".data, 9, 38, true⟩, ⟨"Boleh Cafe".data, 9, 38, true⟩]
     (Except.ok []) (by decide)⟩

/-- Claim C1: `resolve_place_name` tries its tiers in the fixed order
exact-gazetteer, store substring, fuzzy-gazetteer, fuzzy-store, returning
the first success: an exact gazetteer hit makes the result independent of
both store responses (the store is never consulted), a store I/O error at
either store tier is indistinguishable from "no match at that tier", a
tier-2 hit wins whatever the later tiers would answer, a fuzzy-gazetteer
hit wins over tier 4, and only total exhaustion yields `none`. -/
theorem resolve_tier_order :
    ∀ (input : List Char) (findResp : Except Unit (Option DbLocation))
      (listResp : Except Unit (List DbLocation)),
      (∀ loc, common_locations.lookup (normalize_place_name input) = some loc →
        resolve_place_name input findResp listResp = some loc) ∧
      resolve_place_name input (Except.error ()) listResp =
        resolve_place_name input (Except.ok none) listResp ∧
      resolve_place_name input findResp (Except.error ()) =
        resolve_place_name input findResp (Except.ok []) ∧
      (∀ dbl, common_locations.lookup (normalize_place_name input) = none →
        resolve_place_name input (Except.ok (some dbl)) listResp =
          some ⟨dbl.name, dbl.lat, dbl.lng⟩) ∧
      (∀ key loc, common_locations.lookup (normalize_place_name input) = none →
        fuzzy_match_location (normalize_place_name input) = some key →
        common_locations.lookup key = some loc →
        resolve_place_name input (Except.ok none) listResp = some loc) ∧
      (common_locations.lookup (normalize_place_name input) = none →
        fuzzy_match_location (normalize_place_name input) = none →
        resolve_place_name input (Except.ok none) listResp =
          (fuzzy_match_database listResp (normalize_place_name input)).map
            fun dbl => ⟨dbl.name, dbl.lat, dbl.lng⟩) ∧
      (common_locations.lookup (normalize_place_name input) = none →
        fuzzy_match_location (normalize_place_name input) = none →
        resolve_place_name input (Except.ok none) (Except.ok []) = none) := by
  intro input findResp listResp
  refine ⟨?_, ?_, ?_, ?_, ?_, ?_, ?_⟩
  · intro loc h
    simp only [resolve_place_name, h]
  · rcases hcl : common_locations.lookup (normalize_place_name input) with - | loc
    · simp only [resolve_place_name, hcl]
      rfl
    · simp only [resolve_place_name, hcl]
  · rcases hcl : common_locations.lookup (normalize_place_name input) with - | loc
    · rcases hf : find_in_database findResp with - | dbl
      · rcases hfz : fuzzy_match_location (normalize_place_name input) with - | key
        · simp only [resolve_place_name, hcl, hf, hfz]
          rfl
        · simp only [resolve_place_name, hcl, hf, hfz]
      · simp only [resolve_place_name, hcl, hf]
    · simp only [resolve_place_name, hcl]
  · intro dbl h
    simp only [resolve_place_name, h, find_in_database]
  · intro key loc h1 h2 h3
    simp only [resolve_place_name, h1, find_in_database, h2, h3]
  · intro h1 h2
    simp only [resolve_place_name, h1, find_in_database, h2]
    rcases hfd : fuzzy_match_database listResp (normalize_place_name input) with - | dbl
    · simp [hfd]
    · simp [hfd]
  · intro h1 h2
    simp only [resolve_place_name, h1, find_in_database, h2]
    rfl

set_option maxRecDepth 1000000 in
theorem resolve_tier_order_witness :
    (common_locations.lookup (normalize_place_name "MEXICO".data) =
        some ⟨"Mexico".data, 8.989022, 38.79036⟩ ∧
      resolve_place_name "MEXICO".data (Except.error ()) (Except.error ()) =
        some ⟨"Mexico".data, 8.989022, 38.79036⟩) ∧
    (common_locations.lookup (normalize_place_name "zzzznotaplace".data) = none ∧
      fuzzy_match_location (normalize_place_name "zzzznotaplace".data) = none ∧
      resolve_place_name "zzzznotaplace".data (Except.ok none) (Except.ok []) = none) ∧
    (common_locations.lookup (normalize_place_name "zzz".data) = none ∧
      resolve_place_name "zzz".data
          (Except.ok (some ⟨"Zzz Cafe".data, 9, 38, true⟩)) (Except.ok []) =
        some ⟨"Zzz Cafe".data, 9, 38⟩) := by
  have hfz : fuzzy_match_location (normalize_place_name "zzzznotaplace".data) = none := by
    decide
  exact ⟨⟨rfl, (resolve_tier_order "MEXICO".data (Except.error ()) (Except.error ())).1 _ rfl⟩,
    ⟨rfl, hfz, (resolve_tier_order "zzzznotaplace".data (Except.ok none)
      (Except.ok [])).2.2.2.2.2.2 rfl hfz⟩,
    ⟨rfl, (resolve_tier_order "zzz".data
      (Except.ok (some ⟨"Zzz Cafe".data, 9, 38, true⟩)) (Except.ok [])).2.2.2.1 _ rfl⟩⟩

theorem strLtB_irrefl (a : List Char) : strLtB a a = false := by
  induction a with
  | nil => rfl
  | cons c cs ih => simp [strLtB, ih]

theorem strLtB_asymm : ∀ a b : List Char, strLtB a b = true → strLtB b a = false := by
  intro a
  induction a with
  | nil =>
    intro b h
    cases b with
    | nil => simp [strLtB] at h
    | cons d ds => rfl
  | cons c cs ih =>
    intro b h
    cases b with
    | nil => simp [strLtB] at h
    | cons d ds =>
      simp only [strLtB] at h ⊢
      by_cases hcd : c < d
      · have h1 : ¬ d < c := lt_asymm hcd
        have h2 : ¬ d = c := fun he => absurd (he ▸ hcd) (lt_irrefl _)
        rw [if_neg h1, if_neg h2]
      · rw [if_neg hcd] at h
        by_cases heq : c = d
        · rw [if_pos heq] at h
          subst heq
          rw [if_neg (lt_irrefl c), if_pos rfl]
          exact ih ds h
        · rw [if_neg heq] at h
          exact absurd h (by simp)

theorem strLtB_neg_trans : ∀ a b c : List Char,
    strLtB a b = false → strLtB b c = false → strLtB a c = false := by
  intro a
  induction a with
  | nil =>
    intro b c h1 h2
    cases b with
    | nil => exact h2
    | cons d ds => simp [strLtB] at h1
  | cons x xs ih =>
    intro b c h1 h2
    cases c with
    | nil => cases b <;> rfl
    | cons e es =>
      cases b with
      | nil => simp [strLtB] at h2
      | cons d ds =>
        simp only [strLtB] at h1 h2 ⊢
        by_cases hxd : x < d
        · rw [if_pos hxd] at h1; exact absurd h1 (by simp)
        · rw [if_neg hxd] at h1
          by_cases hde : d < e
          · rw [if_pos hde] at h2; exact absurd h2 (by simp)
          · rw [if_neg hde] at h2
            have hdx : d ≤ x := not_lt.mp hxd
            have hed : e ≤ d := not_lt.mp hde
            by_cases hxe : x < e
            · exact absurd hxe (not_lt.mpr (hed.trans hdx))
            · rw [if_neg hxe]
              by_cases hxe2 : x = e
              · rw [if_pos hxe2]
                have hxled : x ≤ d := le_trans (le_of_eq hxe2) hed
                have hxd2 : x = d := le_antisymm hxled hdx
                rw [if_pos hxd2] at h1
                have hde2 : d = e := hxd2.symm.trans hxe2
                rw [if_pos hde2] at h2
                exact ih ds es h1 h2
              · rw [if_neg hxe2]

theorem pairGtB_irrefl (p : ℚ × List Char) : pairGtB p p = false := by
  simp [pairGtB, strLtB_irrefl]

theorem pairGtB_asymm {p q : ℚ × List Char} (h : pairGtB p q = true) :
    pairGtB q p = false := by
  unfold pairGtB at h ⊢
  by_cases h1 : q.1 < p.1
  · rw [if_neg (lt_asymm h1), if_neg (ne_of_gt h1)]
  · rw [if_neg h1] at h
    by_cases h2 : q.1 = p.1
    · rw [if_pos h2] at h
      have hnl : ¬ p.1 < q.1 := by rw [h2]; exact lt_irrefl _
      rw [if_neg hnl, if_pos h2.symm]
      exact strLtB_asymm _ _ h
    · rw [if_neg h2] at h
      exact absurd h (by simp)

theorem pairGtB_neg_trans {p q r : ℚ × List Char} (h1 : pairGtB p q = false)
    (h2 : pairGtB q r = false) : pairGtB p r = false := by
  unfold pairGtB at h1 h2 ⊢
  by_cases hqp : q.1 < p.1
  · rw [if_pos hqp] at h1; exact absurd h1 (by simp)
  · by_cases hrq : r.1 < q.1
    · rw [if_pos hrq] at h2; exact absurd h2 (by simp)
    · rw [if_neg hqp] at h1
      rw [if_neg hrq] at h2
      have hpq : p.1 ≤ q.1 := not_lt.mp hqp
      have hqr : q.1 ≤ r.1 := not_lt.mp hrq
      have hrp : ¬ r.1 < p.1 := not_lt.mpr (hpq.trans hqr)
      rw [if_neg hrp]
      by_cases hre : r.1 = p.1
      · rw [if_pos hre]
        have hqp2 : q.1 = p.1 := le_antisymm (hre ▸ hqr) hpq
        have hrq2 : r.1 = q.1 := hre.trans hqp2.symm
        rw [if_pos hqp2] at h1
        rw [if_pos hrq2] at h2
        exact strLtB_neg_trans _ _ _ h2 h1
      · rw [if_neg hre]

theorem nlargest1_go :
    ∀ (l : List (ℚ × List Char)) (a : ℚ × List Char),
      ∃ m, (l.foldl (fun acc p =>
          match acc with
          | none => some p
          | some q => if pairGtB p q then some p else some q) (some a)) = some m ∧
        (m = a ∨ m ∈ l) ∧ pairGtB a m = false ∧ ∀ q ∈ l, pairGtB q m = false := by
  intro l
  induction l with
  | nil => exact fun a => ⟨a, rfl, Or.inl rfl, pairGtB_irrefl a, by simp⟩
  | cons p rest ih =>
    intro a
    by_cases hpa : pairGtB p a = true
    · obtain ⟨m, hm, hmem, hpm, hall⟩ := ih p
      refine ⟨m, ?_, ?_, ?_, ?_⟩
      · rw [List.foldl_cons]
        show List.foldl _ (if pairGtB p a then some p else some a) rest = some m
        rwa [if_pos hpa]
      · rcases hmem with h | h
        · exact Or.inr (h ▸ List.mem_cons_self p rest)
        · exact Or.inr (List.mem_cons_of_mem p h)
      · exact pairGtB_neg_trans (pairGtB_asymm hpa) hpm
      · intro q hq
        rcases List.mem_cons.mp hq with h | h
        · exact h ▸ hpm
        · exact hall q h
    · have hpa2 : pairGtB p a = false := by
        cases h : pairGtB p a
        · rfl
        · exact absurd h hpa
      obtain ⟨m, hm, hmem, ham, hall⟩ := ih a
      refine ⟨m, ?_, ?_, ham, ?_⟩
      · rw [List.foldl_cons]
        show List.foldl _ (if pairGtB p a then some p else some a) rest = some m
        rwa [if_neg (by simp [hpa2])]
      · rcases hmem with h | h
        · exact Or.inl h
        · exact Or.inr (List.mem_cons_of_mem p h)
      · intro q hq
        rcases List.mem_cons.mp hq with h | h
        · exact h ▸ pairGtB_neg_trans hpa2 ham
        · exact hall q h

theorem nlargest1_some (l : List (ℚ × List Char)) (m : ℚ × List Char)
    (h : nlargest1 l = some m) : m ∈ l ∧ ∀ q ∈ l, pairGtB q m = false := by
  cases l with
  | nil => cases h
  | cons p rest =>
    obtain ⟨m2, hm2, hmem, hpm, hall⟩ := nlargest1_go rest p
    have : nlargest1 (p :: rest) = some m2 := hm2
    rw [h] at this
    injection this with hmm
    subst hmm
    refine ⟨?_, ?_⟩
    · rcases hmem with h2 | h2
      · exact h2 ▸ List.mem_cons_self p rest
      · exact List.mem_cons_of_mem p h2
    · intro q hq
      rcases List.mem_cons.mp hq with h2 | h2
      · exact h2 ▸ hpm
      · exact hall q h2

theorem nlargest1_eq_none (l : List (ℚ × List Char)) (h : nlargest1 l = none) :
    l = [] := by
  cases l with
  | nil => rfl
  | cons p rest =>
    obtain ⟨m2, hm2, -, -, -⟩ := nlargest1_go rest p
    have : nlargest1 (p :: rest) = some m2 := hm2
    rw [h] at this
    cases this

/-- Claim C7 (counterexample): against the key "abc", the candidates "ab"
and "bc" tie at ratio 4/5 ≥ 0.6, yet the matcher returns "bc" — the
lexicographically greater string — not the first candidate in iteration
order. -/
theorem fuzzy_tie_break_counterexample :
    sequenceRatio "ab".data "abc".data = sequenceRatio "bc".data "abc".data ∧
    mkRat 3 5 ≤ sequenceRatio "ab".data "abc".data ∧
    get_close_matches1 "abc".data ["ab".data, "bc".data] (mkRat 3 5) = some "bc".data ∧
    get_close_matches1 "abc".data ["ab".data, "bc".data] (mkRat 3 5) ≠ some "ab".data :=
  ⟨by decide, by decide, by decide, by decide⟩

/-- Claim C7 (amended): the matcher returns the single highest-scoring
candidate iff some candidate scores ≥ cutoff (a score exactly at the
cutoff is accepted, strictly below rejected); among candidates tied for
the highest score the lexicographically greatest string wins (Python
compares the `(score, candidate)` tuples in `heapq.nlargest`), not the
first in iteration order. -/
theorem get_close_matches1_spec :
    ∀ (word : List Char) (cands : List (List Char)) (cutoff : ℚ),
      (∀ c, get_close_matches1 word cands cutoff = some c →
        c ∈ cands ∧ cutoff ≤ sequenceRatio c word ∧
        (∀ d ∈ cands, sequenceRatio d word ≤ sequenceRatio c word) ∧
        (∀ d ∈ cands, sequenceRatio d word = sequenceRatio c word →
          strLtB c d = false)) ∧
      (get_close_matches1 word cands cutoff = none →
        ∀ d ∈ cands, sequenceRatio d word < cutoff) := by
  intro word cands cutoff
  constructor
  · intro c hc
    unfold get_close_matches1 at hc
    rcases hn : nlargest1 (cands.filterMap fun x =>
        let r := sequenceRatio x word
        if cutoff ≤ r then some (r, x) else none) with - | m
    · rw [hn] at hc; cases hc
    · rw [hn] at hc
      have hc2 : m.2 = c := by
        have h3 : some m.2 = some c := hc
        injection h3
      obtain ⟨hmem, hall⟩ := nlargest1_some _ _ hn
      rw [List.mem_filterMap] at hmem
      obtain ⟨x, hx, hfx⟩ := hmem
      have hfx0 : (if cutoff ≤ sequenceRatio x word
          then some (sequenceRatio x word, x) else none) = some m := hfx
      by_cases hcut : cutoff ≤ sequenceRatio x word
      · rw [if_pos hcut] at hfx0
        injection hfx0 with hfx2
        have hm1 : m.1 = sequenceRatio x word := by rw [← hfx2]
        have hm2 : m.2 = x := by rw [← hfx2]
        have hxc : x = c := by rw [← hm2, hc2]
        subst hxc
        subst hc2
        refine ⟨hx, hcut, ?_, ?_⟩
        · intro d hd
          by_cases hdc : cutoff ≤ sequenceRatio d word
          · have hdm : (sequenceRatio d word, d) ∈ cands.filterMap fun x =>
                let r := sequenceRatio x word
                if cutoff ≤ r then some (r, x) else none := by
              rw [List.mem_filterMap]
              exact ⟨d, hd, by simp [hdc]⟩
            have := hall _ hdm
            unfold pairGtB at this
            by_cases hlt : m.1 < sequenceRatio d word
            · rw [if_pos hlt] at this; exact absurd this (by simp)
            · rw [hm1] at hlt; exact not_lt.mp hlt
          · have : sequenceRatio d word < cutoff := not_le.mp hdc
            have h2 : cutoff ≤ sequenceRatio m.2 word := hcut
            calc sequenceRatio d word ≤ cutoff := le_of_lt this
              _ ≤ sequenceRatio m.2 word := h2
        · intro d hd heq
          have hdc : cutoff ≤ sequenceRatio d word := by rw [heq]; exact hcut
          have hdm : (sequenceRatio d word, d) ∈ cands.filterMap fun x =>
              let r := sequenceRatio x word
              if cutoff ≤ r then some (r, x) else none := by
            rw [List.mem_filterMap]
            exact ⟨d, hd, by simp [hdc]⟩
          have hgt := hall _ hdm
          unfold pairGtB at hgt
          have hlt : ¬ m.1 < sequenceRatio d word := by
            rw [hm1, heq]; exact lt_irrefl _
          rw [if_neg hlt] at hgt
          have heq2 : m.1 = sequenceRatio d word := by rw [hm1, heq]
          rwa [if_pos heq2] at hgt
      · rw [if_neg hcut] at hfx0
        cases hfx0
  · intro hnone d hd
    unfold get_close_matches1 at hnone
    rcases hn : nlargest1 (cands.filterMap fun x =>
        let r := sequenceRatio x word
        if cutoff ≤ r then some (r, x) else none) with - | m
    · have hemp := nlargest1_eq_none _ hn
      by_contra hge
      have hdc : cutoff ≤ sequenceRatio d word := not_lt.mp hge
      have hdm : (sequenceRatio d word, d) ∈ cands.filterMap fun x =>
          let r := sequenceRatio x word
          if cutoff ≤ r then some (r, x) else none := by
        rw [List.mem_filterMap]
        exact ⟨d, hd, by simp [hdc]⟩
      rw [hemp] at hdm
      cases hdm
    · rw [hn] at hnone
      cases hnone

theorem get_close_matches1_spec_witness :
    "bc".data ∈ ["ab".data, "bc".data] ∧
    mkRat 3 5 ≤ sequenceRatio "bc".data "abc".data ∧
    strLtB "bc".data "ab".data = false :=
  ⟨((get_close_matches1_spec "abc".data ["ab".data, "bc".data] (mkRat 3 5)).1
      "bc".data (by decide)).1,
   ((get_close_matches1_spec "abc".data ["ab".data, "bc".data] (mkRat 3 5)).1
      "bc".data (by decide)).2.1,
   ((get_close_matches1_spec "abc".data ["ab".data, "bc".data] (mkRat 3 5)).1
      "bc".data (by decide)).2.2.2 "ab".data (by decide) (by decide)⟩

theorem toNat_ofNat_of_lt {n : ℕ} (h : n < 55296) : (Char.ofNat n).toNat = n := by
  have hv : n.isValidChar := Or.inl h
  rw [Char.ofNat, dif_pos hv]
  simp [Char.ofNatAux, Char.toNat, UInt32.toNat]

theorem toLower_toLower (c : Char) : c.toLower.toLower = c.toLower := by
  unfold Char.toLower
  by_cases h : c.toNat ≥ 65 ∧ c.toNat ≤ 90
  · rw [if_pos h]
    have h2 : (Char.ofNat (c.toNat + 32)).toNat = c.toNat + 32 :=
      toNat_ofNat_of_lt (by omega)
    rw [h2, if_neg (by omega)]
  · rw [if_neg h, if_neg h]

/-- No two adjacent spaces. -/
def noDouble : List Char → Bool
  | a :: b :: rest => !(a = ' ' && b = ' ') && noDouble (b :: rest)
  | _ => true

theorem squeeze_subset : ∀ l : List Char, squeeze l ⊆ l
  | [] => by simp [squeeze]
  | [c] => by simp [squeeze]
  | a :: b :: rest => by
    simp only [squeeze]
    split
    · exact fun x hx => List.mem_cons_of_mem a (squeeze_subset (b :: rest) hx)
    · intro x hx
      rcases List.mem_cons.mp hx with h | h
      · exact h ▸ List.mem_cons_self a _
      · exact List.mem_cons_of_mem a (squeeze_subset (b :: rest) h)

theorem squeeze_head? : ∀ l : List Char, (squeeze l).head? = l.head?
  | [] => rfl
  | [c] => rfl
  | a :: b :: rest => by
    simp only [squeeze]
    split
    · rename_i h
      rw [squeeze_head? (b :: rest)]
      simp only [List.head?_cons]
      simp only [Bool.and_eq_true, decide_eq_true_eq] at h
      rw [h.1, h.2]
    · rfl

theorem squeeze_cons_shape (b : Char) (rest : List Char) :
    ∃ w, squeeze (b :: rest) = b :: w := by
  have hh := squeeze_head? (b :: rest)
  cases hsq : squeeze (b :: rest) with
  | nil => rw [hsq] at hh; simp at hh
  | cons x xs =>
    rw [hsq] at hh
    simp only [List.head?_cons, Option.some.injEq] at hh
    exact ⟨xs, by rw [hh]⟩

theorem squeeze_getLast? : ∀ l : List Char, (squeeze l).getLast? = l.getLast?
  | [] => rfl
  | [c] => rfl
  | a :: b :: rest => by
    simp only [squeeze]
    split
    · rw [squeeze_getLast? (b :: rest), List.getLast?_cons_cons]
    · obtain ⟨w, hw⟩ := squeeze_cons_shape b rest
      rw [hw, List.getLast?_cons_cons, ← hw, squeeze_getLast? (b :: rest),
        List.getLast?_cons_cons]

theorem noDouble_squeeze : ∀ l : List Char, noDouble (squeeze l) = true
  | [] => rfl
  | [c] => rfl
  | a :: b :: rest => by
    simp only [squeeze]
    split
    · exact noDouble_squeeze (b :: rest)
    · rename_i h
      obtain ⟨w, hw⟩ := squeeze_cons_shape b rest
      rw [hw]
      simp only [noDouble, Bool.and_eq_true, Bool.not_eq_true']
      refine ⟨?_, ?_⟩
      · cases hx : (decide (a = ' ') && decide (b = ' '))
        · rfl
        · exact absurd hx h
      · have := noDouble_squeeze (b :: rest)
        rwa [hw] at this

theorem squeeze_eq_self_of_noDouble : ∀ l : List Char, noDouble l = true → squeeze l = l
  | [], _ => rfl
  | [c], _ => rfl
  | a :: b :: rest, h => by
    simp only [noDouble, Bool.and_eq_true, Bool.not_eq_true'] at h
    obtain ⟨h1, h2⟩ := h
    simp only [squeeze]
    rw [if_neg (by simp [h1]), squeeze_eq_self_of_noDouble (b :: rest) h2]

theorem head?_dropWhile_not (p : Char → Bool) :
    ∀ (l : List Char) (c : Char), (l.dropWhile p).head? = some c → p c = false := by
  intro l
  induction l with
  | nil => intro c h; cases h
  | cons a rest ih =>
    intro c h
    rw [List.dropWhile_cons] at h
    by_cases hp : p a = true
    · rw [if_pos hp] at h
      exact ih c h
    · rw [if_neg hp] at h
      simp only [List.head?_cons, Option.some.injEq] at h
      rw [← h]
      simpa using hp

theorem dropWhile_eq_self_of_head (p : Char → Bool) (l : List Char)
    (h : ∀ c, l.head? = some c → p c = false) : l.dropWhile p = l := by
  cases l with
  | nil => rfl
  | cons a rest =>
    rw [List.dropWhile_cons, if_neg (by rw [h a rfl]; simp)]

theorem trim_subset (l : List Char) : trim l ⊆ l := by
  intro x hx
  unfold trim at hx
  rw [List.mem_reverse] at hx
  have hx2 : x ∈ (l.dropWhile isSP).reverse := (List.dropWhile_sublist isSP).subset hx
  rw [List.mem_reverse] at hx2
  exact (List.dropWhile_sublist isSP).subset hx2

theorem trim_getLast?_not_sp (l : List Char) (c : Char)
    (h : (trim l).getLast? = some c) : isSP c = false := by
  unfold trim at h
  rw [List.getLast?_reverse] at h
  exact head?_dropWhile_not isSP _ c h

theorem trim_head?_not_sp (l : List Char) (c : Char)
    (h : (trim l).head? = some c) : isSP c = false := by
  unfold trim at h
  have hsplit : ((l.dropWhile isSP).reverse.takeWhile isSP) ++
      ((l.dropWhile isSP).reverse.dropWhile isSP) = (l.dropWhile isSP).reverse :=
    List.takeWhile_append_dropWhile isSP _
  have hu2 : l.dropWhile isSP =
      ((l.dropWhile isSP).reverse.dropWhile isSP).reverse ++
        ((l.dropWhile isSP).reverse.takeWhile isSP).reverse := by
    have h2 := congrArg List.reverse hsplit
    rw [List.reverse_append, List.reverse_reverse] at h2
    exact h2.symm
  have hhead : (l.dropWhile isSP).head? = some c := by
    rw [hu2, List.head?_append, h]
    rfl
  exact head?_dropWhile_not isSP l c hhead

theorem trim_eq_self (l : List Char)
    (h1 : ∀ c, l.head? = some c → isSP c = false)
    (h2 : ∀ c, l.getLast? = some c → isSP c = false) : trim l = l := by
  unfold trim
  rw [dropWhile_eq_self_of_head isSP l h1]
  rw [dropWhile_eq_self_of_head isSP l.reverse
    (fun c hc => h2 c (by rwa [List.head?_reverse] at hc))]
  exact List.reverse_reverse l

theorem map_toLower_eq_self (l : List Char) (h : ∀ c ∈ l, c.toLower = c) :
    l.map Char.toLower = l :=
  (List.map_congr_left h).trans (List.map_id l)

theorem mapSP_eq_self (l : List Char) (h : ∀ c ∈ l, isSP c = true → c = ' ') :
    mapSP l = l := by
  unfold mapSP
  refine (List.map_congr_left ?_).trans (List.map_id l)
  intro c hc
  by_cases hsp : isSP c = true
  · rw [if_pos hsp]
    exact (h c hc hsp).symm
  · rw [if_neg hsp]
    rfl

theorem stripSpecial_eq_self (l : List Char) (h : ∀ c ∈ l, keepChar c = true) :
    stripSpecial l = l :=
  List.filter_eq_self.mpr h

theorem mem_normalize_keep (w : List Char) :
    ∀ c ∈ normalize_place_name w, keepChar c = true := by
  intro c hc
  exact List.of_mem_filter hc

theorem mem_normalize_pre (w : List Char) {c : Char}
    (hc : c ∈ squeeze (mapSP (trim (w.map Char.toLower)))) :
    c = ' ' ∨ ∃ e ∈ w, c = e.toLower ∧ isSP c = false := by
  have h2 : c ∈ mapSP (trim (w.map Char.toLower)) := squeeze_subset _ hc
  unfold mapSP at h2
  rw [List.mem_map] at h2
  obtain ⟨d, hd, hdc⟩ := h2
  by_cases hsp : isSP d = true
  · rw [if_pos hsp] at hdc
    exact Or.inl hdc.symm
  · rw [if_neg hsp] at hdc
    subst hdc
    have hd2 : d ∈ w.map Char.toLower := trim_subset _ hd
    rw [List.mem_map] at hd2
    obtain ⟨e, he, hde⟩ := hd2
    exact Or.inr ⟨e, he, hde.symm, by simpa using hsp⟩

theorem mem_normalize_lower_fixed (w : List Char) :
    ∀ c ∈ normalize_place_name w, c.toLower = c := by
  intro c hc
  have hc2 := List.mem_of_mem_filter hc
  rcases mem_normalize_pre w hc2 with h | ⟨e, -, hce, -⟩
  · rw [h]; rfl
  · rw [hce]; exact toLower_toLower e

theorem mem_normalize_sp_is_space (w : List Char) :
    ∀ c ∈ normalize_place_name w, isSP c = true → c = ' ' := by
  intro c hc hsp
  have hc2 := List.mem_of_mem_filter hc
  rcases mem_normalize_pre w hc2 with h | ⟨-, -, -, hns⟩
  · exact h
  · rw [hsp] at hns; cases hns

/-- Claim C6 (amended): one application of the normalizer need not reach a
fixed point (stripping punctuation can leave double or edge spaces), but a
second application always does: `normalize ∘ normalize` is idempotent. -/
theorem normalize_idempotent_after_once (x : List Char) :
    normalize_place_name (normalize_place_name (normalize_place_name x)) =
      normalize_place_name (normalize_place_name x) := by
  have hyk := mem_normalize_keep x
  have hyl := mem_normalize_lower_fixed x
  have hys := mem_normalize_sp_is_space x
  set y := normalize_place_name x with hy
  have hz : normalize_place_name y = squeeze (trim y) := by
    unfold normalize_place_name
    rw [map_toLower_eq_self y hyl]
    rw [mapSP_eq_self (trim y) (fun c hc hsp => hys c (trim_subset y hc) hsp)]
    rw [stripSpecial_eq_self (squeeze (trim y))
      (fun c hc => hyk c (trim_subset y (squeeze_subset _ hc)))]
  rw [hz]
  have hzsub : ∀ c ∈ squeeze (trim y), c ∈ y :=
    fun c hc => trim_subset y (squeeze_subset _ hc)
  have hzh : ∀ c, (squeeze (trim y)).head? = some c → isSP c = false := by
    intro c hc
    rw [squeeze_head? (trim y)] at hc
    exact trim_head?_not_sp y c hc
  have hzt : ∀ c, (squeeze (trim y)).getLast? = some c → isSP c = false := by
    intro c hc
    rw [squeeze_getLast? (trim y)] at hc
    exact trim_getLast?_not_sp y c hc
  unfold normalize_place_name
  rw [map_toLower_eq_self _ (fun c hc => hyl c (hzsub c hc))]
  rw [trim_eq_self _ hzh hzt]
  rw [mapSP_eq_self _ (fun c hc hsp => hys c (hzsub c hc) hsp)]
  rw [squeeze_eq_self_of_noDouble _ (noDouble_squeeze (trim y))]
  rw [stripSpecial_eq_self _ (fun c hc => hyk c (hzsub c hc))]

/-- Claim C6 (counterexample): `normalize("a . b")` is `"a  b"` (stripping
the dot leaves two adjacent spaces), and normalizing again gives `"a b"`,
so the normalizer is not idempotent. -/
theorem normalize_not_idempotent_counterexample :
    normalize_place_name "a . b".data = "a  b".data ∧
    normalize_place_name (normalize_place_name "a . b".data) = "a b".data ∧
    normalize_place_name (normalize_place_name "a . b".data) ≠
      normalize_place_name "a . b".data :=
  ⟨by decide, by decide, by decide⟩
